import Mathlib

/-!
Verification of the media-intelligence dashboard's data cleaning and
aggregation pipeline (`streamlitapp.py`), via a shallow embedding of its
column-name normalizer, cleaner, aggregators, and insight requester.
-/

set_option maxHeartbeats 1000000

namespace MediaIntel

/-- A cell of the tabular data: either missing (pandas NaN/NaT), a raw
string as read from the CSV, a parsed calendar timestamp (result of the
date coercion), or an integer (result of the engagement coercion). -/
inductive Cell where
  | na
  | str (s : String)
  | timestamp (y m d : Nat)
  | int (n : Int)
deriving DecidableEq

/-- An in-memory table with named columns, as produced by `pd.read_csv`:
a header of column names and a list of rows, each row holding one cell
per column (positionally). -/
structure Table where
  header : List String
  rows : List (List Cell)
deriving DecidableEq

/-- `normalize_column_name` from the source: lowercases the name and
removes spaces, hyphens and underscores
(`name.lower().replace(' ', '').replace('-', '').replace('_', '')`). -/
def normalize_column_name (name : String) : String :=
  String.mk ((name.data.map Char.toLower).filter
    (fun c => decide (c ≠ ' ' ∧ c ≠ '-' ∧ c ≠ '_')))

theorem char_toNat_ofNat_valid {n : Nat} (h : n.isValidChar) :
    (Char.ofNat n).toNat = n := by
  unfold Char.ofNat
  rw [dif_pos h]
  rfl

theorem char_toLower_toLower (c : Char) :
    c.toLower.toLower = c.toLower := by
  unfold Char.toLower
  by_cases h : c.toNat ≥ 65 ∧ c.toNat ≤ 90
  · rw [if_pos h]
    have hv : (c.toNat + 32).isValidChar := by
      left
      omega
    have ht : (Char.ofNat (c.toNat + 32)).toNat = c.toNat + 32 :=
      char_toNat_ofNat_valid hv
    rw [if_neg]
    rw [ht]
    omega
  · rw [if_neg h, if_neg h]

/-- The six canonical required columns (`expected_columns` in `clean_data`). -/
def expected_columns : List String :=
  ["date", "platform", "sentiment", "location", "engagements", "mediatype"]

/-- The missing-columns computation of `clean_data`:
`[col for col in expected_columns if col not in df.columns]`, applied to the
normalized header. -/
def missingColumnsOf (hdr : List String) : List String :=
  expected_columns.filter (fun c => !(hdr.contains c))

/-- Splits a character list on a separator character, like Python's
`str.split(sep)` (used to model the tokenization done by the permissive
date parser). -/
def splitOnChar (sep : Char) : List Char → List (List Char)
  | [] => [[]]
  | c :: cs =>
    match splitOnChar sep cs, decide (c = sep) with
    | r, true => [] :: r
    | [], false => [[c]]
    | g :: gs, false => (c :: g) :: gs

/-- Decimal value of a digit list (the list is assumed to be all digits). -/
def digitsVal (l : List Char) : Nat :=
  l.foldl (fun a c => a * 10 + (c.toNat - 48)) 0

/-- Reads a nonempty all-digit character list as a natural number. -/
def digitsToNat : List Char → Option Nat
  | [] => none
  | l => if l.all Char.isDigit then some (digitsVal l) else none

/-- Gregorian leap-year rule. -/
def isLeap (y : Nat) : Bool :=
  (y % 4 = 0 && y % 100 ≠ 0) || y % 400 = 0

/-- Number of days in a month of a given year. -/
def daysInMonth (y m : Nat) : Nat :=
  if m = 2 then (if isLeap y then 29 else 28)
  else if m = 4 ∨ m = 6 ∨ m = 9 ∨ m = 11 then 30
  else 31

/-- Calendar validity of a year/month/day triple. -/
def validYMD (y m d : Nat) : Bool :=
  1 ≤ m && m ≤ 12 && 1 ≤ d && d ≤ daysInMonth y m

/-- Reads three date fields (year, month, day) as a calendar date. -/
def partsToYMD : List (List Char) → Option (Nat × Nat × Nat)
  | [ys, ms, ds] =>
    if ys.length = 4 ∧ 1 ≤ ms.length ∧ ms.length ≤ 2 ∧ 1 ≤ ds.length ∧ ds.length ≤ 2 then
      match digitsToNat ys, digitsToNat ms, digitsToNat ds with
      | some y, some m, some d => if validYMD y m d then some (y, m, d) else none
      | _, _, _ => none
    else none
  | _ => none

/-- Permissive date parsing of one text value: accepts `YYYY-MM-DD` and
`YYYY/MM/DD` with calendar validation. Models the per-value behavior of
the library call `pd.to_datetime(…, errors='coerce')` used by `clean_data`
(restricted to ISO-like formats; anything else is an unparseable marker). -/
def parseDateChars (l : List Char) : Option (Nat × Nat × Nat) :=
  match partsToYMD (splitOnChar '-' l) with
  | some r => some r
  | none => partsToYMD (splitOnChar '/' l)

/-- Date parsing of one cell: only raw string cells can parse; a missing
cell is an unparseable marker (pandas `NaT`). -/
def parseDate : Cell → Option (Nat × Nat × Nat)
  | .str s => parseDateChars s.data
  | _ => none

/-- Numeric parsing with truncation toward zero of one text value: models
the per-value behavior of `pd.to_numeric(…, errors='coerce')` followed by
`astype(int)` (optional sign, digits, optional fractional part; the
fractional part is discarded, truncating toward zero). -/
def parseNumChars (l : List Char) : Option Int :=
  match l with
  | '-' :: t => (parseUnsigned t).map (fun n => -(n : Int))
  | '+' :: t => (parseUnsigned t).map (fun n => (n : Int))
  | t => (parseUnsigned t).map (fun n => (n : Int))
where
  parseUnsigned (t : List Char) : Option Nat :=
    let intPart := t.takeWhile Char.isDigit
    let rest := t.dropWhile Char.isDigit
    match rest with
    | [] => if intPart.isEmpty then none else some (digitsVal intPart)
    | '.' :: fr =>
      if fr.all Char.isDigit && (!intPart.isEmpty || !fr.isEmpty) then
        some (digitsVal intPart)
      else none
    | _ => none

/-- Numeric parsing of one cell (missing and already-coerced cells do not
parse, matching `pd.to_numeric` coercing them to NaN). -/
def parseNumTrunc : Cell → Option Int
  | .str s => parseNumChars s.data
  | _ => none

/-- The date coercion applied to each cell of the `date` column:
a successful parse becomes a timestamp, a failure becomes the unparseable
marker NaT (modelled as `na`). -/
def coerceDateCell (c : Cell) : Cell :=
  match parseDate c with
  | some (y, m, d) => .timestamp y m d
  | none => .na

/-- The engagement coercion applied to each cell of the `engagements`
column: `pd.to_numeric(…, errors='coerce').fillna(0).astype(int)` —
unparseable or missing values become 0, others are truncated to integer. -/
def coerceEngCell (c : Cell) : Cell :=
  .int ((parseNumTrunc c).getD 0)

/-- Applies `f` to every cell sitting in a column named `k`
(models a pandas column assignment `df[k] = f(df[k])` row by row). -/
def colMapRow (k : String) (f : Cell → Cell) (hdr : List String) (r : List Cell) : List Cell :=
  List.zipWith (fun h c => if h = k then f c else c) hdr r

/-- The cell of row `r` in the column named `k` (first matching column),
or `na` when the row has no such column: models `df[k]` for one row. -/
def getCell (hdr : List String) (r : List Cell) (k : String) : Cell :=
  ((hdr.zip r).lookup k).getD .na

/-- The side diagnostics `clean_data` reports (`st.info` / `st.warning` /
`st.success`): original row count, rows dropped for invalid dates, final
row count. -/
structure CleanReport where
  originalRows : Nat
  droppedInvalidDates : Nat
  finalRows : Nat
deriving DecidableEq

/-- The fatal failure of `clean_data`: the `st.error` + `st.stop` path
naming the missing required columns. -/
inductive CleanError where
  | missingColumns (missing : List String)
deriving DecidableEq

/-- The normalized header:
`df.columns = [normalize_column_name(col) for col in df.columns]`. -/
def normHeader (t : Table) : List String :=
  t.header.map normalize_column_name

/-- The rows after the date coercion
`df['date'] = pd.to_datetime(df['date'], errors='coerce')`. -/
def datedRows (t : Table) : List (List Cell) :=
  t.rows.map (colMapRow "date" coerceDateCell (normHeader t))

/-- The rows surviving `df.dropna(subset=['date'])`. -/
def keptRows (t : Table) : List (List Cell) :=
  (datedRows t).filter
    (fun r => !(decide (getCell (normHeader t) r "date" = Cell.na)))

/-- The rows after the engagement coercion
`df['engagements'] = pd.to_numeric(df['engagements'], errors='coerce').fillna(0).astype(int)`. -/
def cleanedRows (t : Table) : List (List Cell) :=
  (keptRows t).map (colMapRow "engagements" coerceEngCell (normHeader t))

/-- `clean_data` from the source: normalizes column names, checks the six
required columns (fatal error naming the missing ones otherwise), coerces
the `date` column, drops rows whose date failed to parse, then coerces the
`engagements` column; returns the cleaned table plus diagnostics. -/
def clean_data (t : Table) : Except CleanError (Table × CleanReport) :=
  if missingColumnsOf (normHeader t) = [] then
    .ok (⟨normHeader t, cleanedRows t⟩,
         ⟨t.rows.length, t.rows.length - (keptRows t).length, (cleanedRows t).length⟩)
  else
    .error (.missingColumns (missingColumnsOf (normHeader t)))

/-- Insertion of one element into a list, placing it before the first
element it relates to under `le` (building block of the sorts below). -/
def insertLe (le : α → α → Bool) (x : α) : List α → List α
  | [] => [x]
  | y :: ys => if le x y then x :: y :: ys else y :: insertLe le x ys

/-- Stable insertion sort by the Boolean comparator `le`; models the
library sorts used by the aggregators (`sort_values`, sorted group keys).
Ties keep first-encountered order, the documented reproducible choice. -/
def isortLe (le : α → α → Bool) (l : List α) : List α :=
  l.foldr (insertLe le) []

/-- Descending sort of key/value pairs by value; models
`sort_values(…, ascending=False)`. -/
def sortDescBySnd [LinearOrder β] (l : List (γ × β)) : List (γ × β) :=
  isortLe (fun a b => decide (b.2 ≤ a.2)) l

/-- Lexicographic order on character lists (used to order group keys the
way pandas sorts them). -/
def charsLe : List Char → List Char → Bool
  | [], _ => true
  | _ :: _, [] => false
  | a :: as, b :: bs => if a = b then charsLe as bs else decide (a < b)

/-- Constructor rank of a cell, for a total key order. -/
def cellRank : Cell → Nat
  | .na => 0
  | .str _ => 1
  | .timestamp _ _ _ => 2
  | .int _ => 3

/-- Ascending order on group-key cells: strings lexicographically,
timestamps chronologically; models the sorted group keys `groupby`
produces. -/
def cellKeyLe : Cell → Cell → Bool
  | .str a, .str b => charsLe a.data b.data
  | .timestamp y1 m1 d1, .timestamp y2 m2 d2 =>
      decide (y1 < y2 ∨ (y1 = y2 ∧ (m1 < m2 ∨ (m1 = m2 ∧ d1 ≤ d2))))
  | a, b => decide (cellRank a ≤ cellRank b)

/-- The column named `k` of a table, as a list of cells (`df[k]`). -/
def getCol (t : Table) (k : String) : List Cell :=
  t.rows.map (fun r => getCell t.header r k)

/-- The integer value of a cell (engagement cells of a cleaned table are
always `int`). -/
def cellInt : Cell → Int
  | .int n => n
  | _ => 0

/-- Sum of the `engagements` values over the rows whose `keyCol` cell
equals `k` (one group's sum in `df.groupby(keyCol)['engagements'].sum()`). -/
def sumFor (t : Table) (keyCol : String) (k : Cell) : Int :=
  ((((getCol t keyCol).zip (getCol t "engagements")).filter
      (fun p => decide (p.1 = k))).map (fun p => cellInt p.2)).sum

/-- `df.groupby(keyCol)['engagements'].sum().reset_index()`: one row per
distinct non-missing key (pandas drops missing group keys), keys in
ascending order, each with its summed engagements. -/
def groupSumsBy (t : Table) (keyCol : String) : List (Cell × Int) :=
  (isortLe cellKeyLe (((getCol t keyCol).filter
      (fun c => !(decide (c = Cell.na)))).dedup)).map
    (fun k => (k, sumFor t keyCol k))

/-- `value_counts` on a column: one row per distinct non-missing value
with its occurrence count, in descending count order. -/
def value_counts (l : List Cell) : List (Cell × Nat) :=
  sortDescBySnd ((isortLe cellKeyLe
      ((l.filter (fun c => !(decide (c = Cell.na)))).dedup)).map
    (fun c => (c, l.count c)))

/-- Chart 1, `sentiment_counts`: `df['sentiment'].value_counts()`. -/
def sentiment_counts (t : Table) : List (Cell × Nat) :=
  value_counts (getCol t "sentiment")

/-- Chart 2, `engagement_trend`: engagements summed per calendar day of
`date`, ascending by day (`groupby(df['date'].dt.to_period('D')).sum()`;
cleaned dates already carry day precision). -/
def engagement_trend (t : Table) : List (Cell × Int) :=
  groupSumsBy t "date"

/-- Chart 3, `platform_engagements`: engagements summed per platform,
sorted descending by summed value. -/
def platform_engagements (t : Table) : List (Cell × Int) :=
  sortDescBySnd (groupSumsBy t "platform")

/-- Chart 4, `mediatype_counts`: `df['mediatype'].value_counts()`. -/
def mediatype_counts (t : Table) : List (Cell × Nat) :=
  value_counts (getCol t "mediatype")

/-- Chart 5, `location_engagements`: engagements summed per location,
sorted descending by summed value, truncated to the first 5 (`.head(5)`). -/
def location_engagements (t : Table) : List (Cell × Int) :=
  (sortDescBySnd (groupSumsBy t "location")).take 5

/-- The five summary views the chart section derives from one cleaned
table. -/
structure Views where
  sentiment : List (Cell × Nat)
  trend : List (Cell × Int)
  platform : List (Cell × Int)
  mediatype : List (Cell × Nat)
  locations : List (Cell × Int)
deriving DecidableEq

/-- All five summary views of a cleaned table. -/
def allViews (t : Table) : Views :=
  ⟨sentiment_counts t, engagement_trend t, platform_engagements t,
   mediatype_counts t, location_engagements t⟩

/-- The module-level chart section: charts are rendered only under
`if df is not None and not df.empty` — no views are produced when
cleaning failed or when the cleaned table has no rows. -/
def chartSection (df : Option Table) : Option Views :=
  match df with
  | none => none
  | some t => if t.rows.isEmpty then none else some (allViews t)

/-- The cleaned table the upload handler ends up with: `None` whenever
`clean_data` failed fatally. -/
def cleanedTable (raw : Table) : Option Table :=
  match clean_data raw with
  | .ok p => some p.1
  | .error _ => none

/-- End-to-end view production for one upload. -/
def pipelineViews (raw : Table) : Option Views :=
  chartSection (cleanedTable raw)

/-- One generated candidate of the text-generation response, holding the
texts of its content parts (an empty list models a candidate without
usable content/parts). -/
structure Candidate where
  parts : List String
deriving DecidableEq

/-- Outcome of the outbound HTTP exchange of `get_gemini_insight`: either
a response with a status code and candidate list, or a transport failure
(connection error, timeout) carrying its description. -/
inductive HttpOutcome where
  | response (status : Nat) (candidates : List Candidate)
  | transportFailure (desc : String)
deriving DecidableEq

/-- The description of a failed exchange, if it failed: a transport
failure's own description, or the `raise_for_status` error text for a
non-2xx status. `none` means the exchange succeeded. -/
def httpFailureDesc : HttpOutcome → Option String
  | .transportFailure d => some d
  | .response status _ =>
    if 200 ≤ status ∧ status < 300 then none
    else some (toString status ++ " Error")

/-- `get_gemini_insight` from the source, with the configured API key and
the exchange outcome made explicit: unconfigured key short-circuits;
transport failures and non-2xx statuses (via `raise_for_status`) are
caught and rendered as a diagnostic string; an empty candidate list or a
candidate without parts yields the fixed fallback string; otherwise the
first part of the first candidate is returned verbatim. -/
def get_gemini_insight (apiKey : String) (outcome : HttpOutcome) : String :=
  if apiKey = "" ∨ apiKey = "YOUR_GEMINI_API_KEY" then
    "Gemini API key is not configured. Please set your API key to generate insights."
  else
    match outcome with
    | .transportFailure d =>
      "Error calling Gemini API: " ++ d ++ ". Check your API key and network."
    | .response status cands =>
      if 200 ≤ status ∧ status < 300 then
        match cands with
        | [] => "Could not generate insights for this chart."
        | c :: _ =>
          match c.parts with
          | [] => "Could not generate insights for this chart."
          | p :: _ => p
      else
        "Error calling Gemini API: " ++ (toString status ++ " Error") ++
          ". Check your API key and network."

/-- The five sequential insight requests: each view's commentary is the
result of its own exchange, independently of the other exchanges. -/
def insightTexts (apiKey : String) (outcomes : List HttpOutcome) : List String :=
  outcomes.map (get_gemini_insight apiKey)

/-! ### Lemmas about the sorting building blocks -/

theorem insertLe_perm (le : α → α → Bool) (x : α) (l : List α) :
    (insertLe le x l).Perm (x :: l) := by
  induction l with
  | nil => exact List.Perm.refl _
  | cons y ys ih =>
    unfold insertLe
    by_cases h : le x y = true
    · rw [if_pos h]
    · rw [if_neg h]
      exact (List.Perm.cons y ih).trans (List.Perm.swap x y ys)

theorem isortLe_perm (le : α → α → Bool) (l : List α) :
    (isortLe le l).Perm l := by
  induction l with
  | nil => exact List.Perm.refl _
  | cons y ys ih =>
    exact (insertLe_perm le y (isortLe le ys)).trans (List.Perm.cons y ih)

theorem pairwise_insertLe {r : α → α → Prop} {le : α → α → Bool}
    (hmp : ∀ a b, le a b = true → r a b)
    (hmn : ∀ a b, le a b = false → r b a)
    (htr : ∀ a b c, r a b → r b c → r a c)
    (x : α) (l : List α) (hl : l.Pairwise r) :
    (insertLe le x l).Pairwise r := by
  induction l with
  | nil => simp [insertLe]
  | cons y ys ih =>
    rcases List.pairwise_cons.1 hl with ⟨hy, hys⟩
    unfold insertLe
    by_cases h : le x y = true
    · rw [if_pos h]
      refine List.pairwise_cons.2 ⟨?_, hl⟩
      intro z hz
      rcases List.mem_cons.1 hz with hz | hz
      · exact hz ▸ hmp _ _ h
      · exact htr _ _ _ (hmp _ _ h) (hy z hz)
    · rw [if_neg h]
      refine List.pairwise_cons.2 ⟨?_, ih hys⟩
      intro z hz
      rcases List.mem_cons.1 ((insertLe_perm le x ys).mem_iff.1 hz) with hz | hz
      · exact hz ▸ hmn _ _ (Bool.of_not_eq_true h)
      · exact hy z hz

theorem pairwise_isortLe {r : α → α → Prop} {le : α → α → Bool}
    (hmp : ∀ a b, le a b = true → r a b)
    (hmn : ∀ a b, le a b = false → r b a)
    (htr : ∀ a b c, r a b → r b c → r a c)
    (l : List α) :
    (isortLe le l).Pairwise r := by
  induction l with
  | nil => simp [isortLe]
  | cons y ys ih => exact pairwise_insertLe hmp hmn htr y (isortLe le ys) ih

theorem sortDescBySnd_perm [LinearOrder β] (l : List (γ × β)) :
    (sortDescBySnd l).Perm l :=
  isortLe_perm _ l

theorem sortDescBySnd_pairwise [LinearOrder β] (l : List (γ × β)) :
    (sortDescBySnd l).Pairwise (fun a b => b.2 ≤ a.2) :=
  @pairwise_isortLe (γ × β) (fun a b => b.2 ≤ a.2)
    (fun a b => decide (b.2 ≤ a.2))
    (fun _ _ h => of_decide_eq_true h)
    (fun _ _ h => le_of_not_le (of_decide_eq_false h))
    (fun _ _ _ h1 h2 => le_trans h2 h1) l

/-! ### Lemmas about row/column access and the cleaning stages -/

theorem countP_not_eq (p : α → Bool) (l : List α) :
    l.countP (fun a => !(p a)) = l.length - l.countP p := by
  induction l with
  | nil => simp
  | cons a l ih =>
    have hle := List.countP_le_length (l := l) (p := p)
    cases h : p a
    · simp [List.countP_cons, h, ih]
      omega
    · simp [List.countP_cons, h, ih]

theorem lookup_zip_colMapRow_same (k : String) (f : Cell → Cell)
    (hdr : List String) (r : List Cell) :
    ((hdr.zip (colMapRow k f hdr r)).lookup k) = ((hdr.zip r).lookup k).map f := by
  induction hdr generalizing r with
  | nil => simp [colMapRow]
  | cons h hs ih =>
    cases r with
    | nil => simp [colMapRow]
    | cons c cs =>
      by_cases hk : h = k
      · subst hk
        simp [colMapRow, List.lookup]
      · have hbeq : (k == h) = false := beq_eq_false_iff_ne.2 (Ne.symm hk)
        simp only [colMapRow, List.zipWith_cons_cons, List.zip_cons_cons,
          List.lookup, hbeq]
        exact ih cs

theorem lookup_zip_colMapRow_ne {k' k : String} (hne : k' ≠ k) (f : Cell → Cell)
    (hdr : List String) (r : List Cell) :
    ((hdr.zip (colMapRow k f hdr r)).lookup k') = ((hdr.zip r).lookup k') := by
  induction hdr generalizing r with
  | nil => simp [colMapRow]
  | cons h hs ih =>
    cases r with
    | nil => simp [colMapRow]
    | cons c cs =>
      by_cases hk : h = k'
      · subst hk
        simp [colMapRow, List.lookup, hne]
      · have hbeq : (k' == h) = false := beq_eq_false_iff_ne.2 (Ne.symm hk)
        simp only [colMapRow, List.zipWith_cons_cons, List.zip_cons_cons,
          List.lookup, hbeq]
        exact ih cs

theorem getCell_colMapRow_same {f : Cell → Cell} (hf : f Cell.na = Cell.na)
    (k : String) (hdr : List String) (r : List Cell) :
    getCell hdr (colMapRow k f hdr r) k = f (getCell hdr r k) := by
  unfold getCell
  rw [lookup_zip_colMapRow_same]
  cases (hdr.zip r).lookup k <;> simp [hf]

theorem getCell_colMapRow_ne {k' k : String} (hne : k' ≠ k) (f : Cell → Cell)
    (hdr : List String) (r : List Cell) :
    getCell hdr (colMapRow k f hdr r) k' = getCell hdr r k' := by
  unfold getCell
  rw [lookup_zip_colMapRow_ne hne]

theorem lookup_zip_isSome {k : String} {hdr : List String} {r : List Cell}
    (hk : k ∈ hdr) (hlen : hdr.length ≤ r.length) :
    ((hdr.zip r).lookup k).isSome := by
  induction hdr generalizing r with
  | nil => cases hk
  | cons h hs ih =>
    cases r with
    | nil => simp at hlen
    | cons c cs =>
      by_cases hh : h = k
      · subst hh
        simp [List.lookup]
      · have hbeq : (k == h) = false := beq_eq_false_iff_ne.2 (Ne.symm hh)
        have hk' : k ∈ hs := by
          rcases List.mem_cons.1 hk with h1 | h1
          · exact absurd h1.symm hh
          · exact h1
        simp only [List.zip_cons_cons, List.lookup, hbeq]
        exact ih hk' (by simpa using Nat.le_of_succ_le_succ hlen)

theorem length_colMapRow (k : String) (f : Cell → Cell)
    (hdr : List String) (r : List Cell) :
    (colMapRow k f hdr r).length = min hdr.length r.length := by
  simp [colMapRow]

theorem coerceDateCell_na : coerceDateCell Cell.na = Cell.na := rfl

theorem coerceDateCell_eq_na_iff (c : Cell) :
    coerceDateCell c = Cell.na ↔ parseDate c = none := by
  unfold coerceDateCell
  cases h : parseDate c with
  | none => simp
  | some v =>
    obtain ⟨y, m, d⟩ := v
    simp

theorem clean_data_ok {t t' : Table} {rep : CleanReport}
    (h : clean_data t = .ok (t', rep)) :
    missingColumnsOf (normHeader t) = [] ∧
    t' = ⟨normHeader t, cleanedRows t⟩ ∧
    rep = ⟨t.rows.length, t.rows.length - (keptRows t).length, (cleanedRows t).length⟩ := by
  unfold clean_data at h
  by_cases hm : missingColumnsOf (normHeader t) = []
  · rw [if_pos hm] at h
    simp only [Except.ok.injEq, Prod.mk.injEq] at h
    exact ⟨hm, h.1.symm, h.2.symm⟩
  · rw [if_neg hm] at h
    exact absurd h (by simp)

theorem clean_data_error {t : Table}
    (hm : missingColumnsOf (normHeader t) ≠ []) :
    clean_data t = .error (.missingColumns (missingColumnsOf (normHeader t))) := by
  unfold clean_data
  rw [if_neg hm]

theorem mem_of_missing_nil {hdr : List String}
    (h : missingColumnsOf hdr = []) :
    ∀ c ∈ expected_columns, c ∈ hdr := by
  intro c hc
  have h2 := List.filter_eq_nil_iff.1 h c hc
  simp only [Bool.not_eq_true', Bool.not_eq_false] at h2
  exact List.elem_iff.1 h2

theorem getCell_colMapRow_same_of_mem {k : String} {hdr : List String}
    {r : List Cell} (f : Cell → Cell) (hk : k ∈ hdr) (hlen : hdr.length ≤ r.length) :
    getCell hdr (colMapRow k f hdr r) k = f (getCell hdr r k) := by
  obtain ⟨c, hc⟩ := Option.isSome_iff_exists.1 (lookup_zip_isSome hk hlen)
  unfold getCell
  rw [lookup_zip_colMapRow_same, hc]
  rfl

theorem keptRows_filter (t : Table) :
    keptRows t = (t.rows.filter
      (fun r => (parseDate (getCell (normHeader t) r "date")).isSome)).map
      (colMapRow "date" coerceDateCell (normHeader t)) := by
  unfold keptRows datedRows
  rw [List.filter_map]
  congr 1
  apply List.filter_congr
  intro r _
  show (!(decide (getCell (normHeader t)
      (colMapRow "date" coerceDateCell (normHeader t) r) "date" = Cell.na))) =
    (parseDate (getCell (normHeader t) r "date")).isSome
  rw [getCell_colMapRow_same coerceDateCell_na]
  cases h : parseDate (getCell (normHeader t) r "date") with
  | none => simp [coerceDateCell, h]
  | some v =>
    obtain ⟨y, m, d⟩ := v
    simp [coerceDateCell, h]

theorem cleanedRows_eq (t : Table) :
    cleanedRows t = (t.rows.filter
      (fun r => (parseDate (getCell (normHeader t) r "date")).isSome)).map
      (fun r => colMapRow "engagements" coerceEngCell (normHeader t)
        (colMapRow "date" coerceDateCell (normHeader t) r)) := by
  unfold cleanedRows
  rw [keptRows_filter, List.map_map]
  rfl

theorem keptRows_length (t : Table) :
    (keptRows t).length = t.rows.countP
      (fun r => (parseDate (getCell (normHeader t) r "date")).isSome) := by
  rw [keptRows_filter, List.length_map, ← List.countP_eq_length_filter]

theorem cleanedRows_length (t : Table) :
    (cleanedRows t).length = t.rows.countP
      (fun r => (parseDate (getCell (normHeader t) r "date")).isSome) := by
  unfold cleanedRows
  rw [List.length_map, keptRows_length]

theorem normHeader_length (t : Table) :
    (normHeader t).length = t.header.length := by
  unfold normHeader
  exact List.length_map _ _

/-! ### Lemmas about the grouped-sum views -/

theorem groupSumsBy_mem {t : Table} {kc : String} {p : Cell × Int}
    (hp : p ∈ groupSumsBy t kc) :
    p.1 ∈ getCol t kc ∧ p.1 ≠ Cell.na ∧ p.2 = sumFor t kc p.1 := by
  unfold groupSumsBy at hp
  rcases List.mem_map.1 hp with ⟨k, hk, rfl⟩
  have hk2 := (isortLe_perm cellKeyLe _).mem_iff.1 hk
  rw [List.mem_dedup] at hk2
  rcases List.mem_filter.1 hk2 with ⟨hmem, hna⟩
  refine ⟨hmem, ?_, rfl⟩
  simpa using hna

theorem groupSumsBy_mem_of {t : Table} {kc : String} {k : Cell}
    (hmem : k ∈ getCol t kc) (hna : k ≠ Cell.na) :
    (k, sumFor t kc k) ∈ groupSumsBy t kc := by
  unfold groupSumsBy
  refine List.mem_map.2 ⟨k, ?_, rfl⟩
  apply (isortLe_perm cellKeyLe _).mem_iff.2
  rw [List.mem_dedup, List.mem_filter]
  exact ⟨hmem, by simpa using hna⟩

theorem value_counts_spec (l : List Cell) :
    ((value_counts l).map Prod.fst).Nodup ∧
    (∀ c, c ∈ (value_counts l).map Prod.fst ↔ (c ∈ l ∧ c ≠ Cell.na)) ∧
    (∀ p ∈ value_counts l, p.2 = l.count p.1) ∧
    (value_counts l).Pairwise (fun a b => b.2 ≤ a.2) := by
  have hbase : ((isortLe cellKeyLe
      ((l.filter (fun c => !(decide (c = Cell.na)))).dedup)).map
      (fun c => (c, l.count c))).map Prod.fst =
      isortLe cellKeyLe ((l.filter (fun c => !(decide (c = Cell.na)))).dedup) := by
    rw [List.map_map]
    exact List.map_id _
  have hperm : ((value_counts l).map Prod.fst).Perm
      (isortLe cellKeyLe ((l.filter (fun c => !(decide (c = Cell.na)))).dedup)) := by
    rw [← hbase]
    exact (sortDescBySnd_perm _).map Prod.fst
  have hperm2 : ((value_counts l).map Prod.fst).Perm
      ((l.filter (fun c => !(decide (c = Cell.na)))).dedup) :=
    hperm.trans (isortLe_perm cellKeyLe _)
  refine ⟨?_, ?_, ?_, sortDescBySnd_pairwise _⟩
  · exact hperm2.nodup_iff.2 (List.nodup_dedup _)
  · intro c
    rw [hperm2.mem_iff, List.mem_dedup, List.mem_filter]
    simp
  · intro p hp
    have hp2 := (sortDescBySnd_perm _).mem_iff.1 hp
    rcases List.mem_map.1 hp2 with ⟨k, _, rfl⟩
    rfl

/-! ### Concrete example tables used by witnesses and counterexamples -/

/-- A raw upload with only two of the six required columns. -/
def exMissing : Table :=
  ⟨["Date", "Platform"],
   [[.str "2024-01-01", .str "X"]]⟩

/-- The spec's date-filtering example: three rows with dates
`["2024-01-01", "not-a-date", "2024-01-03"]`, all required columns present. -/
def exDates : Table :=
  ⟨["Date", "Platform", "Sentiment", "Location", "Engagements", "Media Type"],
   [[.str "2024-01-01", .str "X", .str "pos", .str "A", .str "5", .str "img"],
    [.str "not-a-date", .str "Y", .str "neg", .str "B", .str "7", .str "vid"],
    [.str "2024-01-03", .str "Z", .str "neu", .str "C", .str "9", .str "txt"]]⟩

/-- The spec's engagement-coercion example: engagement values
`["5", "", "abc", "-3"]` (the empty field reads as a missing value),
all dates valid. -/
def exEngagements : Table :=
  ⟨["date", "platform", "sentiment", "location", "engagements", "mediatype"],
   [[.str "2024-01-01", .str "X", .str "pos", .str "A", .str "5", .str "img"],
    [.str "2024-01-02", .str "X", .str "pos", .str "A", .na, .str "img"],
    [.str "2024-01-03", .str "X", .str "pos", .str "A", .str "abc", .str "img"],
    [.str "2024-01-04", .str "X", .str "pos", .str "A", .str "-3", .str "img"]]⟩

/-- A cleaned table whose per-location engagement sums are
`{A:10, B:30, C:20, D:5, E:25, F:1}`. -/
def exLocations : Table :=
  ⟨["date", "platform", "sentiment", "location", "engagements", "mediatype"],
   [[.timestamp 2024 1 1, .str "X", .str "pos", .str "A", .int 10, .str "img"],
    [.timestamp 2024 1 1, .str "X", .str "pos", .str "B", .int 30, .str "img"],
    [.timestamp 2024 1 1, .str "X", .str "pos", .str "C", .int 20, .str "img"],
    [.timestamp 2024 1 1, .str "X", .str "pos", .str "D", .int 5, .str "img"],
    [.timestamp 2024 1 1, .str "X", .str "pos", .str "E", .int 25, .str "img"],
    [.timestamp 2024 1 1, .str "X", .str "pos", .str "F", .int 1, .str "img"]]⟩

/-- A cleaned table with zero rows. -/
def exEmpty : Table :=
  ⟨["date", "platform", "sentiment", "location", "engagements", "mediatype"], []⟩

/-- A raw upload whose single row has a valid date and a negative
engagement value. -/
def exNegative : Table :=
  ⟨["date", "platform", "sentiment", "location", "engagements", "mediatype"],
   [[.str "2024-01-01", .str "X", .str "pos", .str "A", .str "-3", .str "img"]]⟩

/-- A raw upload with an additional column beyond the six required ones. -/
def exExtra : Table :=
  ⟨["Date", "Platform", "Sentiment", "Location", "Engagements", "Media Type", "Extra Col"],
   [[.str "2024-01-01", .str "X", .str "pos", .str "A", .str "5", .str "img", .str "keepme"],
    [.str "bad", .str "Y", .str "neg", .str "B", .str "7", .str "vid", .str "gone"]]⟩

/-- A cleaned table with repeated sentiment and media-type categories. -/
def exCategories : Table :=
  ⟨["date", "platform", "sentiment", "location", "engagements", "mediatype"],
   [[.timestamp 2024 1 1, .str "X", .str "pos", .str "A", .int 1, .str "img"],
    [.timestamp 2024 1 2, .str "X", .str "neg", .str "A", .int 2, .str "vid"],
    [.timestamp 2024 1 3, .str "X", .str "pos", .str "A", .int 3, .str "img"]]⟩

/-- The cleaned table `clean_data` produces for `exDates`. -/
def exDatesClean : Table :=
  ⟨["date", "platform", "sentiment", "location", "engagements", "mediatype"],
   [[.timestamp 2024 1 1, .str "X", .str "pos", .str "A", .int 5, .str "img"],
    [.timestamp 2024 1 3, .str "Z", .str "neu", .str "C", .int 9, .str "txt"]]⟩

/-- The cleaned table `clean_data` produces for `exEngagements`. -/
def exEngagementsClean : Table :=
  ⟨["date", "platform", "sentiment", "location", "engagements", "mediatype"],
   [[.timestamp 2024 1 1, .str "X", .str "pos", .str "A", .int 5, .str "img"],
    [.timestamp 2024 1 2, .str "X", .str "pos", .str "A", .int 0, .str "img"],
    [.timestamp 2024 1 3, .str "X", .str "pos", .str "A", .int 0, .str "img"],
    [.timestamp 2024 1 4, .str "X", .str "pos", .str "A", .int (-3), .str "img"]]⟩

/-- The cleaned table `clean_data` produces for `exNegative`. -/
def exNegativeClean : Table :=
  ⟨["date", "platform", "sentiment", "location", "engagements", "mediatype"],
   [[.timestamp 2024 1 1, .str "X", .str "pos", .str "A", .int (-3), .str "img"]]⟩

/-- The cleaned table `clean_data` produces for `exExtra`. -/
def exExtraClean : Table :=
  ⟨["date", "platform", "sentiment", "location", "engagements", "mediatype", "extracol"],
   [[.timestamp 2024 1 1, .str "X", .str "pos", .str "A", .int 5, .str "img", .str "keepme"]]⟩

/-! ### Claim theorems -/

/-- C5: the column-name normalizer is idempotent — for every string `x`,
`normalize_column_name (normalize_column_name x) = normalize_column_name x`. -/
theorem C5_normalizer_idempotent (x : String) :
    normalize_column_name (normalize_column_name x) = normalize_column_name x := by
  unfold normalize_column_name
  congr 1
  show ((((x.data.map Char.toLower).filter
      (fun c => decide (c ≠ ' ' ∧ c ≠ '-' ∧ c ≠ '_'))).map Char.toLower).filter
      (fun c => decide (c ≠ ' ' ∧ c ≠ '-' ∧ c ≠ '_'))) =
    (x.data.map Char.toLower).filter (fun c => decide (c ≠ ' ' ∧ c ≠ '-' ∧ c ≠ '_'))
  have hmem : ∀ c ∈ (x.data.map Char.toLower).filter
      (fun c => decide (c ≠ ' ' ∧ c ≠ '-' ∧ c ≠ '_')), Char.toLower c = c := by
    intro c hc
    rcases List.mem_map.1 (List.mem_filter.1 hc).1 with ⟨a, _, rfl⟩
    exact char_toLower_toLower a
  rw [(List.map_congr_left hmem).trans (List.map_id _)]
  exact List.filter_eq_self.2 (fun a ha => (List.mem_filter.1 ha).2)

/-- C2: a table in which at least one of the six required canonical
columns is absent after normalization fails fatally; the failure names
exactly the required columns absent from the normalized header, and
neither a cleaned table nor any summary view is produced. -/
theorem C2_missing_columns_fatal (t : Table)
    (h : missingColumnsOf (normHeader t) ≠ []) :
    clean_data t = .error (.missingColumns (missingColumnsOf (normHeader t))) ∧
    (∀ c, c ∈ missingColumnsOf (normHeader t) ↔
      (c ∈ expected_columns ∧ c ∉ normHeader t)) ∧
    cleanedTable t = none ∧
    pipelineViews t = none := by
  have he := clean_data_error h
  refine ⟨he, ?_, ?_, ?_⟩
  · intro c
    unfold missingColumnsOf
    rw [List.mem_filter]
    simp [List.elem_iff]
  · unfold cleanedTable
    rw [he]
  · unfold pipelineViews cleanedTable
    rw [he]
    rfl

/-- C2 witness: `exMissing` lacks four of the required columns; cleaning
it fails fatally naming them, and no cleaned table or views appear. -/
theorem C2_missing_columns_fatal_witness :
    clean_data exMissing =
      .error (.missingColumns (missingColumnsOf (normHeader exMissing))) ∧
    (∀ c, c ∈ missingColumnsOf (normHeader exMissing) ↔
      (c ∈ expected_columns ∧ c ∉ normHeader exMissing)) ∧
    cleanedTable exMissing = none ∧
    pipelineViews exMissing = none :=
  C2_missing_columns_fatal exMissing (by decide)

/-- C1 counterexample: the claim requires every cleaned row to carry a
non-negative `engagements` value, but cleaning `exNegative` (single row,
valid date, engagement input `"-3"`) succeeds and its surviving row holds
the negative value `-3`. -/
theorem C1_counterexample_negative_engagement :
    clean_data exNegative = .ok (exNegativeClean, ⟨1, 0, 1⟩) ∧
    getCol exNegativeClean "engagements" = [Cell.int (-3)] ∧
    ¬ (0 : Int) ≤ -3 := by
  refine ⟨rfl, rfl, by decide⟩

/-- C1 (amended): after successful cleaning, every row of the cleaned
table has a validly parsed `date` timestamp and an integer `engagements`
value — integer, but not necessarily non-negative, since negative inputs
pass through — and every row whose date failed to parse is absent: the
cleaned row count equals the number of input rows whose date parses. -/
theorem C1_amended_cleaning_invariant (t t' : Table) (rep : CleanReport)
    (hrect : ∀ r ∈ t.rows, r.length = t.header.length)
    (h : clean_data t = .ok (t', rep)) :
    (∀ r' ∈ t'.rows,
      (∃ y m d, getCell t'.header r' "date" = .timestamp y m d) ∧
      (∃ n, getCell t'.header r' "engagements" = .int n)) ∧
    t'.rows.length = t.rows.countP
      (fun r => (parseDate (getCell (normHeader t) r "date")).isSome) := by
  obtain ⟨hm, ht', _⟩ := clean_data_ok h
  subst ht'
  constructor
  · intro r' hr'
    simp only at hr' ⊢
    rw [cleanedRows_eq] at hr'
    rcases List.mem_map.1 hr' with ⟨r, hrmem, rfl⟩
    rcases List.mem_filter.1 hrmem with ⟨hrt, hdate⟩
    obtain ⟨⟨y, m, d⟩, hymd⟩ := Option.isSome_iff_exists.1 hdate
    have hlen : (normHeader t).length ≤
        (colMapRow "date" coerceDateCell (normHeader t) r).length := by
      rw [length_colMapRow, normHeader_length, hrect r hrt]
      simp
    constructor
    · refine ⟨y, m, d, ?_⟩
      rw [getCell_colMapRow_ne (by decide) _ _ _,
        getCell_colMapRow_same coerceDateCell_na]
      simp [coerceDateCell, hymd]
    · refine ⟨(parseNumTrunc (getCell (normHeader t)
        (colMapRow "date" coerceDateCell (normHeader t) r) "engagements")).getD 0, ?_⟩
      rw [getCell_colMapRow_same_of_mem coerceEngCell
        (mem_of_missing_nil hm "engagements" (by decide)) hlen]
      rfl
  · simp only
    exact cleanedRows_length t

/-- C1 amended witness: on the single-row table `exNegative` the cleaned
row has a parsed timestamp and an integer engagement value, and exactly
the one parseable-date row survives. -/
theorem C1_amended_cleaning_invariant_witness :
    (∀ r' ∈ exNegativeClean.rows,
      (∃ y m d, getCell exNegativeClean.header r' "date" = .timestamp y m d) ∧
      (∃ n, getCell exNegativeClean.header r' "engagements" = .int n)) ∧
    exNegativeClean.rows.length = exNegative.rows.countP
      (fun r => (parseDate (getCell (normHeader exNegative) r "date")).isSome) :=
  C1_amended_cleaning_invariant exNegative exNegativeClean ⟨1, 0, 1⟩
    (by decide) rfl

/-- C3: cleaning a table with all required columns drops exactly the rows
whose date fails permissive parsing and reports the number of dropped rows
as a diagnostic (not an error); on the spec's example with dates
`["2024-01-01", "not-a-date", "2024-01-03"]` the cleaned table has exactly
2 rows and the reported dropped count is 1. -/
theorem C3_date_filtering :
    (∀ (t t' : Table) (rep : CleanReport), clean_data t = .ok (t', rep) →
      t'.rows = (t.rows.filter
        (fun r => (parseDate (getCell (normHeader t) r "date")).isSome)).map
        (fun r => colMapRow "engagements" coerceEngCell (normHeader t)
          (colMapRow "date" coerceDateCell (normHeader t) r)) ∧
      rep.droppedInvalidDates = t.rows.countP
        (fun r => (parseDate (getCell (normHeader t) r "date")).isNone) ∧
      rep.originalRows = t.rows.length ∧
      rep.finalRows = t'.rows.length) ∧
    clean_data exDates = .ok (exDatesClean, ⟨3, 1, 2⟩) ∧
    exDatesClean.rows.length = 2 := by
  refine ⟨?_, rfl, rfl⟩
  intro t t' rep h
  obtain ⟨_, ht', hrep⟩ := clean_data_ok h
  subst ht'
  subst hrep
  refine ⟨?_, ?_, rfl, rfl⟩
  · simp only
    exact cleanedRows_eq t
  · simp only
    rw [keptRows_length]
    have hc : t.rows.countP
        (fun r => (parseDate (getCell (normHeader t) r "date")).isNone) =
        t.rows.countP
        (fun r => !((parseDate (getCell (normHeader t) r "date")).isSome)) := by
      apply List.countP_congr
      intro r _
      cases parseDate (getCell (normHeader t) r "date") <;> simp
    rw [hc, countP_not_eq]

/-- C3 witness: the general part applied to the concrete example upload. -/
theorem C3_date_filtering_witness :
    exDatesClean.rows = (exDates.rows.filter
      (fun r => (parseDate (getCell (normHeader exDates) r "date")).isSome)).map
      (fun r => colMapRow "engagements" coerceEngCell (normHeader exDates)
        (colMapRow "date" coerceDateCell (normHeader exDates) r)) ∧
    (CleanReport.mk 3 1 2).droppedInvalidDates = exDates.rows.countP
      (fun r => (parseDate (getCell (normHeader exDates) r "date")).isNone) ∧
    (CleanReport.mk 3 1 2).originalRows = exDates.rows.length ∧
    (CleanReport.mk 3 1 2).finalRows = exDatesClean.rows.length :=
  C3_date_filtering.1 exDates exDatesClean ⟨3, 1, 2⟩ rfl

/-- C4: each surviving row's `engagements` value is the truncated numeric
parse of the corresponding input value (0 when missing/empty/unparseable,
negative numbers passed through); on the spec's example the inputs
`["5", missing, "abc", "-3"]` clean to `[5, 0, 0, -3]`. -/
theorem C4_engagement_coercion :
    (∀ (t t' : Table) (rep : CleanReport),
      (∀ r ∈ t.rows, r.length = t.header.length) →
      clean_data t = .ok (t', rep) →
      ∀ r' ∈ t'.rows, ∃ r ∈ t.rows,
        getCell t'.header r' "engagements" =
          .int ((parseNumTrunc (getCell (normHeader t) r "engagements")).getD 0)) ∧
    clean_data exEngagements = .ok (exEngagementsClean, ⟨4, 0, 4⟩) ∧
    getCol exEngagementsClean "engagements" =
      [.int 5, .int 0, .int 0, .int (-3)] ∧
    parseNumTrunc (.str "5") = some 5 ∧
    parseNumTrunc Cell.na = none ∧
    parseNumTrunc (.str "abc") = none ∧
    parseNumTrunc (.str "-3") = some (-3) := by
  refine ⟨?_, rfl, rfl, rfl, rfl, rfl, rfl⟩
  intro t t' rep hrect h
  obtain ⟨hm, ht', _⟩ := clean_data_ok h
  subst ht'
  intro r' hr'
  simp only at hr' ⊢
  rw [cleanedRows_eq] at hr'
  rcases List.mem_map.1 hr' with ⟨r, hrmem, rfl⟩
  rcases List.mem_filter.1 hrmem with ⟨hrt, _⟩
  refine ⟨r, hrt, ?_⟩
  have hlen : (normHeader t).length ≤
      (colMapRow "date" coerceDateCell (normHeader t) r).length := by
    rw [length_colMapRow, normHeader_length, hrect r hrt]
    simp
  rw [getCell_colMapRow_same_of_mem coerceEngCell
    (mem_of_missing_nil hm "engagements" (by decide)) hlen,
    getCell_colMapRow_ne (by decide) _ _ _]
  rfl

/-- C4 witness: the general part applied to the concrete example upload. -/
theorem C4_engagement_coercion_witness :
    ∀ r' ∈ exEngagementsClean.rows, ∃ r ∈ exEngagements.rows,
      getCell exEngagementsClean.header r' "engagements" =
        .int ((parseNumTrunc (getCell (normHeader exEngagements) r "engagements")).getD 0) :=
  C4_engagement_coercion.1 exEngagements exEngagementsClean ⟨4, 0, 4⟩
    (by decide) rfl

/-- C9 (frame): cleaning only rewrites the `date` and `engagements`
columns — every surviving row keeps its length and, at every column name
other than `date` and `engagements` (the four other required columns and
any additional ones), its original value; all input columns are retained
under their normalized names. -/
theorem C9_frame_only_date_engagements (t t' : Table) (rep : CleanReport)
    (hrect : ∀ r ∈ t.rows, r.length = t.header.length)
    (h : clean_data t = .ok (t', rep)) :
    t'.header = normHeader t ∧
    ∀ r' ∈ t'.rows, ∃ r, r ∈ t.rows ∧ r'.length = r.length ∧
      ∀ k, k ≠ "date" → k ≠ "engagements" →
        getCell t'.header r' k = getCell (normHeader t) r k := by
  obtain ⟨_, ht', _⟩ := clean_data_ok h
  subst ht'
  refine ⟨rfl, ?_⟩
  intro r' hr'
  simp only at hr' ⊢
  rw [cleanedRows_eq] at hr'
  rcases List.mem_map.1 hr' with ⟨r, hrmem, rfl⟩
  rcases List.mem_filter.1 hrmem with ⟨hrt, _⟩
  refine ⟨r, hrt, ?_, ?_⟩
  · rw [length_colMapRow, length_colMapRow, normHeader_length, hrect r hrt]
    simp
  · intro k hkd hke
    rw [getCell_colMapRow_ne hke _ _ _, getCell_colMapRow_ne hkd _ _ _]

/-- C9 witness: on `exExtra` (which has an additional column `Extra Col`)
the extra column survives under its normalized name with its value intact. -/
theorem C9_frame_only_date_engagements_witness :
    (exExtraClean.header = normHeader exExtra ∧
     ∀ r' ∈ exExtraClean.rows, ∃ r, r ∈ exExtra.rows ∧ r'.length = r.length ∧
       ∀ k, k ≠ "date" → k ≠ "engagements" →
         getCell exExtraClean.header r' k = getCell (normHeader exExtra) r k) ∧
    clean_data exExtra = .ok (exExtraClean, ⟨2, 1, 1⟩) ∧
    getCol exExtraClean "extracol" = [.str "keepme"] :=
  ⟨C9_frame_only_date_engagements exExtra exExtraClean ⟨2, 1, 1⟩ (by decide) rfl,
   rfl, rfl⟩

/-- C8: when the API key is configured and the exchange fails at transport
level (connection error, timeout, or non-2xx status), `get_gemini_insight`
returns the diagnostic string embedding the failure description — a
returned value, not a raised fault — the diagnostic is non-empty, and
every outcome in a sequence of view exchanges still gets its own
commentary string. -/
theorem C8_insight_degradation (apiKey : String) (outcome : HttpOutcome)
    (d : String)
    (hkey : ¬ (apiKey = "" ∨ apiKey = "YOUR_GEMINI_API_KEY"))
    (hfail : httpFailureDesc outcome = some d) :
    get_gemini_insight apiKey outcome =
      "Error calling Gemini API: " ++ d ++ ". Check your API key and network." ∧
    get_gemini_insight apiKey outcome ≠ "" ∧
    ∀ outcomes : List HttpOutcome,
      (insightTexts apiKey outcomes).length = outcomes.length := by
  have heq : get_gemini_insight apiKey outcome =
      "Error calling Gemini API: " ++ d ++ ". Check your API key and network." := by
    cases outcome with
    | transportFailure d' =>
      simp only [httpFailureDesc, Option.some.injEq] at hfail
      simp only [get_gemini_insight, if_neg hkey]
      rw [hfail]
    | response status cands =>
      by_cases h2 : 200 ≤ status ∧ status < 300
      · simp only [httpFailureDesc, if_pos h2] at hfail
        exact absurd hfail (by simp)
      · simp only [httpFailureDesc, if_neg h2, Option.some.injEq] at hfail
        simp only [get_gemini_insight, if_neg hkey, if_neg h2]
        rw [hfail]
  refine ⟨heq, ?_, ?_⟩
  · rw [heq]
    intro h0
    have h1 := congrArg String.data h0
    rw [String.data_append, String.data_append] at h1
    have h2 := (List.append_eq_nil.1 (List.append_eq_nil.1 h1).1).1
    exact absurd h2 (by decide)
  · intro outcomes
    unfold insightTexts
    simp

/-- C8 witness: with a configured key, an HTTP 500 response yields the
non-empty diagnostic string embedding "500 Error", and a run over five
exchange outcomes yields five commentary strings. -/
theorem C8_insight_degradation_witness :
    ¬ (("k" : String) = "" ∨ ("k" : String) = "YOUR_GEMINI_API_KEY") ∧
    httpFailureDesc (.response 500 []) = some "500 Error" ∧
    (get_gemini_insight "k" (.response 500 []) =
      "Error calling Gemini API: " ++ "500 Error" ++ ". Check your API key and network." ∧
    get_gemini_insight "k" (.response 500 []) ≠ "" ∧
    ∀ outcomes : List HttpOutcome,
      (insightTexts "k" outcomes).length = outcomes.length) :=
  ⟨by decide, rfl, C8_insight_degradation "k" (.response 500 []) "500 Error" (by decide) rfl⟩

/-- C6: the top-locations view is the per-location engagement sums sorted
in descending order of summed value and truncated to the first 5 entries:
it has at most 5 rows, its values are non-increasing, every row is a
per-location sum, every location either appears or is dominated by all
shown rows, and on sums `{A:10, B:30, C:20, D:5, E:25, F:1}` the view is
exactly `[B:30, E:25, C:20, A:10, D:5]`. -/
theorem C6_top_locations :
    (∀ t : Table, (location_engagements t).length ≤ 5) ∧
    (∀ t : Table,
      (location_engagements t).Pairwise (fun a b => b.2 ≤ a.2)) ∧
    (∀ t : Table, ∀ p ∈ location_engagements t,
      p.1 ∈ getCol t "location" ∧ p.1 ≠ Cell.na ∧
      p.2 = sumFor t "location" p.1) ∧
    (∀ t : Table, ∀ k, k ∈ getCol t "location" → k ≠ Cell.na →
      (k, sumFor t "location" k) ∈ location_engagements t ∨
      ∀ p ∈ location_engagements t, sumFor t "location" k ≤ p.2) ∧
    location_engagements exLocations =
      [(.str "B", 30), (.str "E", 25), (.str "C", 20), (.str "A", 10), (.str "D", 5)] := by
  refine ⟨?_, ?_, ?_, ?_, by decide⟩
  · intro t
    unfold location_engagements
    rw [List.length_take]
    exact min_le_left _ _
  · intro t
    exact (sortDescBySnd_pairwise _).sublist (List.take_sublist _ _)
  · intro t p hp
    exact groupSumsBy_mem
      ((sortDescBySnd_perm _).mem_iff.1 (List.take_subset _ _ hp))
  · intro t k hmem hna
    by_cases hin : (k, sumFor t "location" k) ∈ location_engagements t
    · exact Or.inl hin
    · refine Or.inr (fun p hp => ?_)
      have hS : (k, sumFor t "location" k) ∈
          sortDescBySnd (groupSumsBy t "location") :=
        (sortDescBySnd_perm _).mem_iff.2 (groupSumsBy_mem_of hmem hna)
      have hsplit := List.take_append_drop 5 (sortDescBySnd (groupSumsBy t "location"))
      have hdrop : (k, sumFor t "location" k) ∈
          (sortDescBySnd (groupSumsBy t "location")).drop 5 := by
        rcases List.mem_append.1 (by rw [hsplit]; exact hS) with h1 | h1
        · exact absurd h1 hin
        · exact h1
      have hpw : ((sortDescBySnd (groupSumsBy t "location")).take 5 ++
          (sortDescBySnd (groupSumsBy t "location")).drop 5).Pairwise
          (fun (a b : Cell × Int) => b.2 ≤ a.2) := by
        rw [hsplit]
        exact sortDescBySnd_pairwise _
      exact (List.pairwise_append.1 hpw).2.2 p hp _ hdrop

/-- C6 witness: instantiating the quantified parts at the example table —
the top row `(B, 30)` is the sum for location B, and location F (sum 1)
is dominated by every shown row. -/
theorem C6_top_locations_witness :
    ((Cell.str "B", (30 : Int)).1 ∈ getCol exLocations "location" ∧
     (Cell.str "B", (30 : Int)).1 ≠ Cell.na ∧
     (Cell.str "B", (30 : Int)).2 = sumFor exLocations "location"
       (Cell.str "B", (30 : Int)).1) ∧
    ((Cell.str "F", sumFor exLocations "location" (Cell.str "F")) ∈
       location_engagements exLocations ∨
     ∀ p ∈ location_engagements exLocations,
       sumFor exLocations "location" (Cell.str "F") ≤ p.2) :=
  ⟨C6_top_locations.2.2.1 exLocations (Cell.str "B", (30 : Int)) (by decide),
   C6_top_locations.2.2.2.1 exLocations (Cell.str "F") (by decide) (by decide)⟩

/-- C7 counterexample: for a cleaned table with zero rows the chart
section produces no summary views at all (the `not df.empty` guard skips
it), rather than the five empty views the claim requires — even though
the five aggregations on that table would each be empty. -/
theorem C7_counterexample_no_views_on_empty :
    chartSection (some exEmpty) = none ∧
    allViews exEmpty = ⟨[], [], [], [], []⟩ ∧
    chartSection (some exEmpty) ≠ some (allViews exEmpty) :=
  ⟨rfl, rfl, by decide⟩

/-- C7 (amended): for every upload whose cleaned table has zero rows, the
chart section is skipped — no summary views are produced, and nothing
fails — while each of the five aggregations, applied to that empty table,
yields an empty view. -/
theorem C7_amended_empty_table (t : Table) (h : t.rows = []) :
    chartSection (some t) = none ∧
    allViews t = ⟨[], [], [], [], []⟩ := by
  obtain ⟨hdr, rows⟩ := t
  have h' : rows = [] := h
  subst h'
  exact ⟨rfl, rfl⟩

/-- C7 amended witness: the amended claim at the concrete empty table. -/
theorem C7_amended_empty_table_witness :
    chartSection (some exEmpty) = none ∧
    allViews exEmpty = ⟨[], [], [], [], []⟩ :=
  C7_amended_empty_table exEmpty rfl

/-- C10: for a non-empty cleaned table, the sentiment-breakdown and
media-type-mix views each contain exactly one row per distinct
(non-missing) category value present in the table — the shown categories
are distinct and are exactly the column's values — each with its
occurrence count, ordered by non-increasing count. -/
theorem C10_category_views (t : Table) (_hne : t.rows ≠ []) :
    (((sentiment_counts t).map Prod.fst).Nodup ∧
     (∀ c, c ∈ (sentiment_counts t).map Prod.fst ↔
       (c ∈ getCol t "sentiment" ∧ c ≠ Cell.na)) ∧
     (∀ p ∈ sentiment_counts t, p.2 = (getCol t "sentiment").count p.1) ∧
     (sentiment_counts t).Pairwise (fun a b => b.2 ≤ a.2)) ∧
    (((mediatype_counts t).map Prod.fst).Nodup ∧
     (∀ c, c ∈ (mediatype_counts t).map Prod.fst ↔
       (c ∈ getCol t "mediatype" ∧ c ≠ Cell.na)) ∧
     (∀ p ∈ mediatype_counts t, p.2 = (getCol t "mediatype").count p.1) ∧
     (mediatype_counts t).Pairwise (fun a b => b.2 ≤ a.2)) :=
  ⟨value_counts_spec (getCol t "sentiment"),
   value_counts_spec (getCol t "mediatype")⟩

/-- C10 witness: the category views of the concrete three-row table. -/
theorem C10_category_views_witness :
    (((sentiment_counts exCategories).map Prod.fst).Nodup ∧
     (∀ c, c ∈ (sentiment_counts exCategories).map Prod.fst ↔
       (c ∈ getCol exCategories "sentiment" ∧ c ≠ Cell.na)) ∧
     (∀ p ∈ sentiment_counts exCategories,
       p.2 = (getCol exCategories "sentiment").count p.1) ∧
     (sentiment_counts exCategories).Pairwise (fun a b => b.2 ≤ a.2)) ∧
    (((mediatype_counts exCategories).map Prod.fst).Nodup ∧
     (∀ c, c ∈ (mediatype_counts exCategories).map Prod.fst ↔
       (c ∈ getCol exCategories "mediatype" ∧ c ≠ Cell.na)) ∧
     (∀ p ∈ mediatype_counts exCategories,
       p.2 = (getCol exCategories "mediatype").count p.1) ∧
     (mediatype_counts exCategories).Pairwise (fun a b => b.2 ≤ a.2)) :=
  C10_category_views exCategories (by decide)

end MediaIntel
